import Mathlib

/-!
Verification of the dcm-service export pipeline (masterise-plus/dcm-service).

The definitions below are a shallow embedding of the TypeScript source:

* `runLoop` embeds the fetch loop of
  `SalesforceQueryService.getAllResultsWithPagination`
  (src/application/services/QueryService.ts, lines 123-167), with the
  remote API abstracted as an oracle `fetch : offset → requested → response`
  and an explicit fuel argument standing for the number of loop iterations
  the scheduler allows (the JS loop has no iteration bound of its own).
* `planQueryId` / `totalRowCountOf` embed the probe handling of the same
  function (lines 94-112), including JavaScript truthiness of `||` chains.
* `appRunModel` and `exportEvents` embed `Application.run` of the
  new-pagination application entry (fetch everything, then write header and
  batches, then optionally upload).
* `escapeCsv` embeds `CsvWriter.escapeCsv` (src/utils/CsvWriter.ts, 50-60),
  over `List Char` so that kernel evaluation is exact.
* `getAccessToken` and friends embed `SalesforceAuthService`
  (src/infrastructure/auth/SalesforceAuthService.ts), with network effects
  abstracted as oracles and counted explicitly.
-/

/-- JavaScript `a || b` for a possibly-absent number: `0` and `undefined`
are falsy, so both fall through to the default. -/
def orElseNum (a : Option Nat) (d : Nat) : Nat :=
  match a with
  | some n => if n = 0 then d else n
  | none => d

/-- A row of result data; only its presence matters to the control flow. -/
abbrev Row : Type := List (Option (List Char))

/-- Shape of one batch response from `getQueryResults`, as used by the
pagination loop: `returnedRows`, the optional `data` array, and `done`. -/
structure QueryResponse where
  returnedRows : Option Nat
  data : Option (List Row)
  done : Bool
deriving DecidableEq

/-- `batchResponse.returnedRows || batchResponse.data?.length || 0`
(QueryService.ts line 149): the actual advance of the offset. -/
def actualReturnedRows (b : QueryResponse) : Nat :=
  orElseNum b.returnedRows (orElseNum (b.data.map List.length) 0)

/-- `const maxBatchSize = 25000` (QueryService.ts line 126). -/
def maxBatchSize : Nat := 25000

/-- One iteration of the fetch loop: the offset and batch size passed to
`getQueryResults`, and the response that came back. -/
structure FetchRecord where
  offset : Nat
  requested : Nat
  response : QueryResponse
deriving DecidableEq

/-- Result of running the fetch loop for a bounded number of iterations:
the fetches issued, the final `currentOffset`, and whether the loop
reached its exit condition (`terminated = false` means the fuel ran out
while `currentOffset < totalRowCount`, i.e. the JS loop would still be
running). -/
structure LoopResult where
  trace : List FetchRecord
  finalOffset : Nat
  terminated : Bool
deriving DecidableEq

/-- The `while (currentOffset < totalRowCount)` loop of
`getAllResultsWithPagination` (QueryService.ts lines 129-167):
compute `batchSize = min(maxBatchSize, totalRowCount - currentOffset)`,
fetch, push the response, advance the offset by `actualReturnedRows`. -/
def runLoop (fetch : Nat → Nat → QueryResponse) (total : Nat) :
    Nat → Nat → LoopResult
  | 0, offset => ⟨[], offset, decide (total ≤ offset)⟩
  | fuel + 1, offset =>
    if offset < total then
      let batchSize := min maxBatchSize (total - offset)
      let b := fetch offset batchSize
      let r := runLoop fetch total fuel (offset + actualReturnedRows b)
      ⟨⟨offset, batchSize, b⟩ :: r.trace, r.finalOffset, r.terminated⟩
    else ⟨[], offset, true⟩

/-- The loop invariant tying each trace record to the offset the loop held
when it was issued: records chain by `actualReturnedRows`, and each
request size is `min maxBatchSize (total - offset)`. -/
def wellChained (total : Nat) : List FetchRecord → Nat → Prop
  | [], _ => True
  | rec :: rest, offset =>
    rec.offset = offset ∧
    rec.requested = min maxBatchSize (total - offset) ∧
    wellChained total rest (offset + actualReturnedRows rec.response)

/-- An oracle that always returns exactly the number of rows requested. -/
def exactF : Nat → Nat → QueryResponse := fun _ s => ⟨some s, none, false⟩

/-- An oracle that returns one row per fetch and reports `done = true`
on every batch. -/
def doneF : Nat → Nat → QueryResponse := fun _ _ => ⟨some 1, none, true⟩

/-- An oracle that returns one row per fetch (fewer than requested)
with `done = false`. -/
def shortF : Nat → Nat → QueryResponse := fun _ _ => ⟨some 1, none, false⟩

/-- An oracle whose batches carry `returnedRows = 0` and an empty data
array, so the offset never advances. -/
def stallF : Nat → Nat → QueryResponse := fun _ _ => ⟨some 0, some [], true⟩

/-- The `status` object of the initial probe response. -/
structure StatusInfo where
  queryId : Option String
  rowCount : Option Nat
deriving DecidableEq

/-- The initial probe response of `getAllResultsWithPagination`: the handle
and row count may sit at top level or nested under `status`. -/
structure InitialResponse where
  queryId : Option String
  status : Option StatusInfo
  rowCount : Option Nat
deriving DecidableEq

/-- JavaScript `a || b` for possibly-absent strings: `undefined` and the
empty string are falsy. -/
def jsOrStr (a b : Option String) : Option String :=
  match a with
  | some s => if s = "" then b else some s
  | none => b

/-- JavaScript truthiness of a possibly-absent string. -/
def truthyStr (o : Option String) : Bool :=
  match o with
  | some s => !(s = "")
  | none => false

/-- `initialResponse.queryId || initialResponse.status?.queryId ||
(initialResponse.status as any)?.queryId` (QueryService.ts lines 97-99);
the third location coincides with the second. -/
def extractQueryId (r : InitialResponse) : Option String :=
  jsOrStr r.queryId
    (jsOrStr (r.status.bind StatusInfo.queryId) (r.status.bind StatusInfo.queryId))

/-- The handle check of lines 101-110: a falsy extracted handle throws
`No queryId returned from initial query`, otherwise planning proceeds. -/
def planQueryId (r : InitialResponse) : Except String String :=
  match extractQueryId r with
  | none => Except.error "No queryId returned from initial query"
  | some q =>
    if q = "" then Except.error "No queryId returned from initial query"
    else Except.ok q

/-- `initialResponse.status?.rowCount || initialResponse.rowCount || 0`
(QueryService.ts line 112). -/
def totalRowCountOf (r : InitialResponse) : Nat :=
  orElseNum (r.status.bind StatusInfo.rowCount) (orElseNum r.rowCount 0)

/-- Outcome of a successful `Application.run`: how many offset-fetches were
made, and how many header lines and data batches were written. -/
structure RunReport where
  fetches : Nat
  headerLines : Nat
  dataBatches : Nat
deriving DecidableEq

/-- `Application.run` of the new-pagination entry point: probe, extract the
handle, run the whole fetch loop, throw `No data returned from query` on an
empty batch list, then write one header line and every batch in order. -/
def appRunModel (probe : InitialResponse) (fetch : Nat → Nat → QueryResponse)
    (fuel : Nat) : Except String RunReport :=
  match planQueryId probe with
  | Except.error e => Except.error e
  | Except.ok _ =>
    let r := runLoop fetch (totalRowCountOf probe) fuel 0
    if r.trace.length = 0 then Except.error "No data returned from query"
    else Except.ok ⟨r.trace.length, 1, r.trace.length⟩

/-- The observable ordering of `Application.run`: page fetches, the header
write, and per-batch writes. -/
inductive ExportEvent where
  | fetchPage (offset requested : Nat)
  | writeHeader
  | writeBatch (idx : Nat)
deriving DecidableEq

def isFetchEvent : ExportEvent → Bool
  | ExportEvent.fetchPage _ _ => true
  | _ => false

def isWriteEvent : ExportEvent → Bool
  | ExportEvent.fetchPage _ _ => false
  | _ => true

/-- The chronological event list of `Application.run` with the
new-pagination service: `getAllResultsWithPagination` performs every fetch
first and returns the accumulated batch list; only afterwards does the
application write the header and then each batch (or throw, when the batch
list is empty, before writing anything). -/
def exportEvents (fetch : Nat → Nat → QueryResponse) (total fuel : Nat) :
    List ExportEvent :=
  let r := runLoop fetch total fuel 0
  if r.trace.length = 0 then []
  else
    (r.trace.map (fun rec => ExportEvent.fetchPage rec.offset rec.requested)) ++
      ExportEvent.writeHeader ::
        (List.range r.trace.length).map ExportEvent.writeBatch

/-- The zero-row probe: a truthy handle, no `status`, `rowCount = 0`. -/
def probe0 : InitialResponse := ⟨some "q", none, some 0⟩

/-- An oracle returning batches with no row count and no data. -/
def anyF : Nat → Nat → QueryResponse := fun _ _ => ⟨none, none, false⟩

/-- `/[",\n\r]/.test(str)` (CsvWriter.ts line 55). -/
def needsQuoting (s : List Char) : Bool :=
  s.any (fun c => c == '"' || c == ',' || c == '\n' || c == '\r')

/-- `str.replace(/"/g, QQ)` where QQ is a doubled quote
(CsvWriter.ts line 56): every double quote becomes two. -/
def doubleQuotes : List Char → List Char
  | [] => []
  | c :: rest =>
    if c = '"' then '"' :: '"' :: doubleQuotes rest else c :: doubleQuotes rest

/-- `CsvWriter.escapeCsv` (CsvWriter.ts lines 50-60) on an already
stringified scalar: `none` stands for `null`/`undefined` (empty field);
a string containing a comma, quote, CR or LF is wrapped in quotes with
internal quotes doubled; anything else passes through. -/
def escapeCsv (v : Option (List Char)) : List Char :=
  match v with
  | none => []
  | some s =>
    if needsQuoting s then '"' :: (doubleQuotes s ++ ['"']) else s

/-- Collapse doubled quotes back to single ones. -/
def undoubleQuotes : List Char → List Char
  | '"' :: '"' :: rest => '"' :: undoubleQuotes rest
  | c :: rest => c :: undoubleQuotes rest
  | [] => []

/-- RFC 4180 field unescape, the spec's round-trip counterpart of
`escapeCsv`: a field wrapped in double quotes is stripped of them and
internal doubled quotes are collapsed; any other field is unchanged. -/
def rfc4180Unescape (s : List Char) : List Char :=
  if s.head? = some '"' ∧ s.getLast? = some '"' ∧ 2 ≤ s.length then
    undoubleQuotes ((s.drop 1).dropLast)
  else s

/-- Mutable state of `SalesforceAuthService`: the cached credential, its
expiry timestamp, and the validation-result cache (key, result, timestamp).
Tokens are `List Char` so the 50-character cache key is `take 50`. -/
structure AuthState where
  currentToken : Option (List Char)
  tokenExpiry : Nat
  validationCache : List (List Char × Bool × Nat)
deriving DecidableEq

/-- `VALIDATION_CACHE_TTL = 5 * 60 * 1000` (SalesforceAuthService.ts
line 12). -/
def VALIDATION_CACHE_TTL : Nat := 5 * 60 * 1000

/-- `this.validationCache.get(cacheKey)`: first entry with the given key. -/
def lookupCache : List (List Char × Bool × Nat) → List Char → Option (Bool × Nat)
  | [], _ => none
  | (k, v, t) :: rest, key =>
    if k = key then some (v, t) else lookupCache rest key

/-- `isTokenExpired` (lines 74-79): no token or zero expiry means expired,
otherwise compare `Date.now()` against the expiry. -/
def isTokenExpired (s : AuthState) (now : Nat) : Bool :=
  match s.currentToken with
  | none => true
  | some _ =>
    if s.tokenExpiry = 0 then true
    else if s.tokenExpiry ≤ now then true
    else false

/-- `isTokenValid` (lines 81-105) with the network validation probe as an
oracle: returns the validity verdict, the updated state, and how many fresh
validation probes were made (0 on a cache hit within the TTL). -/
def isTokenValidM (validate : List Char → Bool) (now : Nat) (s : AuthState) :
    Bool × AuthState × Nat :=
  match s.currentToken with
  | none => (false, s, 0)
  | some t =>
    match lookupCache s.validationCache (t.take 50) with
    | some (v, ts) =>
      if now - ts < VALIDATION_CACHE_TTL then (v, s, 0)
      else
        (validate t,
          ⟨s.currentToken, s.tokenExpiry,
            (t.take 50, validate t, now) :: s.validationCache⟩, 1)
    | none =>
      (validate t,
        ⟨s.currentToken, s.tokenExpiry,
          (t.take 50, validate t, now) :: s.validationCache⟩, 1)

/-- `refreshToken` (lines 153-215) with the token-exchange endpoint as an
oracle: store the fresh token with a 2-hour expiry; the last two components
count token-exchange calls (always 1 here) and validation probes (0). -/
def refreshTokenM (freshTok : List Char) (now : Nat) (s : AuthState) :
    List Char × AuthState × Nat × Nat :=
  (freshTok, ⟨some freshTok, now + 2 * 60 * 60 * 1000, s.validationCache⟩, 1, 0)

/-- `clearCachedToken` (lines 146-151). -/
def clearCachedToken (_ : AuthState) : AuthState := ⟨none, 0, []⟩

/-- `getAccessToken` (lines 26-57): use the cached token when it is
unexpired and validates; otherwise clear (when validation failed) and
refresh. Returns the token, the new state, the number of token-exchange
calls, and the number of fresh validation probes. -/
def getAccessToken (validate : List Char → Bool) (freshTok : List Char)
    (now : Nat) (s : AuthState) : List Char × AuthState × Nat × Nat :=
  match s.currentToken with
  | some t =>
    if isTokenExpired s now then refreshTokenM freshTok now s
    else
      match isTokenValidM validate now s with
      | (true, s1, p) => (t, s1, 0, p)
      | (false, s1, p) =>
        match refreshTokenM freshTok now (clearCachedToken s1) with
        | (tok, s3, rc, _) => (tok, s3, rc, p)
  | none => refreshTokenM freshTok now s

/-- A concrete auth state with a fresh, validation-cached credential. -/
def authS : AuthState := ⟨some ['t'], 1000, [(['t'], true, 400)]⟩

/-- The storage-upload tail of `Application.run` (the new-pagination entry,
after `csvWriter.close()`): when upload is enabled and a bucket is
configured, attempt the upload; a failure is caught and logged and the run
continues with no `gcsUrl`. `file` is the already-written local output,
passed through untouched. -/
def finalizeExport {α : Type} (uploadEnabled : Bool) (bucketName : Option String)
    (upload : Except String String) (file : α) :
    Except String (Option String × α) :=
  if uploadEnabled && truthyStr bucketName then
    match upload with
    | Except.ok url => Except.ok (some url, file)
    | Except.error _ => Except.ok (none, file)
  else Except.ok (none, file)

theorem runLoop_wellChained (fetch : Nat → Nat → QueryResponse)
    (total : Nat) :
    ∀ fuel offset, wellChained total ((runLoop fetch total fuel offset).trace) offset := by
  intro fuel
  induction fuel with
  | zero => intro offset; simp [runLoop, wellChained]
  | succ n ih =>
    intro offset
    by_cases h : offset < total
    · simp only [runLoop, if_pos h]
      exact ⟨rfl, rfl, ih _⟩
    · simp [runLoop, if_neg h, wellChained]

theorem wellChained_requested (total : Nat) :
    ∀ (l : List FetchRecord) (offset : Nat), wellChained total l offset →
      ∀ r ∈ l, r.requested = min maxBatchSize (total - r.offset) := by
  intro l
  induction l with
  | nil => intro offset _ r hr; cases hr
  | cons a t ih =>
    intro offset hc r hr
    obtain ⟨ho, hq, hrest⟩ := hc
    cases hr with
    | head => rw [hq, ho]
    | tail _ hmem => exact ih _ hrest r hmem

theorem wellChained_adjacent (total : Nat) :
    ∀ (l : List FetchRecord) (offset : Nat), wellChained total l offset →
      ∀ i (h : i + 1 < l.length),
        (l.get ⟨i + 1, h⟩).offset =
          (l.get ⟨i, Nat.lt_of_succ_lt h⟩).offset +
            actualReturnedRows (l.get ⟨i, Nat.lt_of_succ_lt h⟩).response := by
  intro l
  induction l with
  | nil => intro offset _ i h; simp at h
  | cons a t ih =>
    intro offset hc i h
    obtain ⟨ho, _, hrest⟩ := hc
    cases i with
    | zero =>
      cases t with
      | nil => simp at h
      | cons b t2 =>
        obtain ⟨hb, _, _⟩ := hrest
        simp [List.get, hb, ho]
    | succ n =>
      have h' : n + 1 < t.length := by simpa using h
      simpa [List.get] using ih _ hrest n h'

theorem runLoop_actual_congr (f1 f2 : Nat → Nat → QueryResponse)
    (h : ∀ o s, actualReturnedRows (f1 o s) = actualReturnedRows (f2 o s))
    (total : Nat) :
    ∀ fuel offset,
      ((runLoop f1 total fuel offset).trace.map (fun r => (r.offset, r.requested)) =
        (runLoop f2 total fuel offset).trace.map (fun r => (r.offset, r.requested))) ∧
      (runLoop f1 total fuel offset).finalOffset =
        (runLoop f2 total fuel offset).finalOffset ∧
      (runLoop f1 total fuel offset).terminated =
        (runLoop f2 total fuel offset).terminated := by
  intro fuel
  induction fuel with
  | zero => intro offset; simp [runLoop]
  | succ n ih =>
    intro offset
    by_cases hlt : offset < total
    · simp only [runLoop, if_pos hlt]
      have hadv := h offset (min maxBatchSize (total - offset))
      obtain ⟨it, io, id2⟩ := ih (offset + actualReturnedRows (f2 offset (min maxBatchSize (total - offset))))
      rw [hadv]
      exact ⟨by simpa using it, io, id2⟩
    · simp [runLoop, if_neg hlt]

theorem actualReturnedRows_zero (b : QueryResponse)
    (h1 : b.returnedRows = none ∨ b.returnedRows = some 0)
    (h2 : b.data = none ∨ b.data = some []) :
    actualReturnedRows b = 0 := by
  rcases h1 with h1 | h1 <;> rcases h2 with h2 | h2 <;>
    simp [actualReturnedRows, orElseNum, h1, h2]

theorem runLoop_stalled_aux (f : Nat → Nat → QueryResponse)
    (total offset : Nat)
    (ha : ∀ o s, actualReturnedRows (f o s) = 0) (h : offset < total) :
    ∀ fuel,
      (runLoop f total fuel offset).terminated = false ∧
      (runLoop f total fuel offset).trace.length = fuel ∧
      ∀ r ∈ (runLoop f total fuel offset).trace,
        r.offset = offset ∧ r.requested = min maxBatchSize (total - offset) := by
  intro fuel
  induction fuel with
  | zero =>
    refine ⟨?_, by simp [runLoop], by simp [runLoop]⟩
    simp [runLoop]
    omega
  | succ n ih =>
    obtain ⟨it, il, ir⟩ := ih
    refine ⟨?_, ?_, ?_⟩
    · simp only [runLoop, if_pos h, ha]
      simpa [ha] using it
    · simp only [runLoop, if_pos h, ha, List.length_cons]
      simpa [ha] using congrArg Nat.succ il
    · intro r hr
      simp only [runLoop, if_pos h, ha] at hr
      rcases List.mem_cons.mp hr with hr | hr
      · subst hr; exact ⟨rfl, rfl⟩
      · exact ir r (by simpa [ha] using hr)

theorem runLoop_exact_aux (f : Nat → Nat → QueryResponse) (N : Nat)
    (hex : ∀ o s, 0 < s → actualReturnedRows (f o s) = s) :
    ∀ fuel offset, offset ≤ N → N - offset ≤ fuel →
      (runLoop f N fuel offset).terminated = true ∧
      (runLoop f N fuel offset).finalOffset = N ∧
      (runLoop f N fuel offset).trace.length =
        (N - offset + (maxBatchSize - 1)) / maxBatchSize ∧
      ((runLoop f N fuel offset).trace.map
          (fun r => actualReturnedRows r.response)).sum = N - offset := by
  have hm : maxBatchSize = 25000 := rfl
  intro fuel
  induction fuel with
  | zero =>
    intro offset h1 h2
    have heq : offset = N := by omega
    subst heq
    refine ⟨by simp [runLoop], by simp [runLoop], ?_, by simp [runLoop]⟩
    simp [runLoop, hm]
  | succ n ih =>
    intro offset h1 h2
    by_cases hlt : offset < N
    · have hb : 0 < min maxBatchSize (N - offset) := by
        rw [hm]; omega
      have ha := hex offset (min maxBatchSize (N - offset)) hb
      have hle1 : min maxBatchSize (N - offset) ≤ N - offset := min_le_right _ _
      obtain ⟨it, io, il, is2⟩ :=
        ih (offset + min maxBatchSize (N - offset)) (by omega) (by rw [hm] at hb hle1; omega)
      simp only [runLoop, if_pos hlt, ha]
      refine ⟨it, io, ?_, ?_⟩
      · simp only [List.length_cons, il]
        rw [hm] at hb hle1 ⊢
        omega
      · simp only [List.map_cons, List.sum_cons, is2, ha]
        omega
    · have heq : offset = N := by omega
      subst heq
      refine ⟨by simp [runLoop], by simp [runLoop], ?_, by simp [runLoop]⟩
      simp [runLoop, hm]

theorem fetchEvent_not_writeEvent (a : ExportEvent)
    (h : isFetchEvent a = true) : isWriteEvent a = false := by
  cases a <;> simp [isFetchEvent, isWriteEvent] at h ⊢

theorem no_write_before_fetch_append (l1 l2 : List ExportEvent)
    (h1 : ∀ a ∈ l1, isFetchEvent a = true)
    (h2 : ∀ b ∈ l2, isFetchEvent b = false) :
    (l1 ++ l2).Pairwise (fun a b => ¬(isWriteEvent a = true ∧ isFetchEvent b = true)) := by
  rw [List.pairwise_append]
  refine ⟨?_, ?_, ?_⟩
  · refine List.pairwise_of_forall_mem_list ?_
    intro a ha b hb hab
    exact absurd hab.1 (by simp [fetchEvent_not_writeEvent a (h1 a ha)])
  · refine List.pairwise_of_forall_mem_list ?_
    intro a ha b hb hab
    exact absurd hab.2 (by simp [h2 b hb])
  · intro a ha b hb hab
    exact absurd hab.1 (by simp [fetchEvent_not_writeEvent a (h1 a ha)])

theorem undoubleQuotes_cons_ne (c : Char) (h : ¬ c = '"') (l : List Char) :
    undoubleQuotes (c :: l) = c :: undoubleQuotes l := by
  cases l with
  | nil => simp [undoubleQuotes, h]
  | cons d t => simp [undoubleQuotes, h]

theorem undoubleQuotes_doubleQuotes (s : List Char) :
    undoubleQuotes (doubleQuotes s) = s := by
  induction s with
  | nil => rfl
  | cons c t ih =>
    by_cases h : c = '"'
    · subst h
      simp only [doubleQuotes, if_pos rfl]
      simpa [undoubleQuotes] using ih
    · simp only [doubleQuotes, if_neg h]
      rw [undoubleQuotes_cons_ne c h, ih]

theorem rfc4180Unescape_quoted (m : List Char) :
    rfc4180Unescape ('"' :: (m ++ ['"'])) = undoubleQuotes m := by
  have h2 : ('"' :: (m ++ ['"'])).getLast? = some '"' := by
    rw [← List.cons_append]
    exact List.getLast?_concat _
  have h3 : 2 ≤ ('"' :: (m ++ ['"'])).length := by simp
  unfold rfc4180Unescape
  rw [if_pos ⟨rfl, h2, h3⟩]
  congr 1
  show (m ++ ['"']).dropLast = m
  exact List.dropLast_concat

/-- C1: for every total row count `N ≥ 0` reported by the probe, when every
offset fetch returns exactly the number of rows requested,
`getAllResultsWithPagination` issues exactly `⌈N / 25000⌉` offset-fetches
after the probe (zero when `N = 0`), each fetch requesting
`min(25000, N - currentOffset)` rows, and the cumulative `returnedRows`
over all fetches equals `N`. -/
theorem pagination_exact_fetch_count (f : Nat → Nat → QueryResponse)
    (N fuel : Nat)
    (hex : ∀ o s, 0 < s → actualReturnedRows (f o s) = s)
    (hfuel : N ≤ fuel) :
    (runLoop f N fuel 0).terminated = true ∧
    (runLoop f N fuel 0).trace.length = (N + (maxBatchSize - 1)) / maxBatchSize ∧
    ((runLoop f N fuel 0).trace.map (fun r => actualReturnedRows r.response)).sum = N ∧
    ∀ r ∈ (runLoop f N fuel 0).trace,
      r.requested = min maxBatchSize (N - r.offset) := by
  obtain ⟨it, _, il, is2⟩ :=
    runLoop_exact_aux f N hex fuel 0 (Nat.zero_le N) (by omega)
  refine ⟨it, by simpa using il, by simpa using is2, ?_⟩
  exact wellChained_requested N _ 0 (runLoop_wellChained f N fuel 0)

/-- Witness for C1 at `N = 3`, fuel 3, with the exact-return oracle:
one fetch, cumulative rows 3. -/
theorem pagination_exact_fetch_count_witness :
    (runLoop exactF 3 3 0).terminated = true ∧
    (runLoop exactF 3 3 0).trace.length = (3 + (maxBatchSize - 1)) / maxBatchSize ∧
    ((runLoop exactF 3 3 0).trace.map (fun r => actualReturnedRows r.response)).sum = 3 := by
  obtain ⟨a, b, c, _⟩ :=
    pagination_exact_fetch_count exactF 3 3
      (fun o s hs => by
        simp [exactF, actualReturnedRows, orElseNum, Nat.pos_iff_ne_zero.mp hs])
      (by omega)
  exact ⟨a, b, c⟩

/-- C2: in every iteration of the pagination loop, the offset is advanced by
the number of rows the fetch actually returned (`returnedRows`, falling back
to the data-array length, falling back to 0, as computed by
`actualReturnedRows`), so the next fetch starts exactly where the previous
one ended. -/
theorem offset_advances_by_actual_rows (f : Nat → Nat → QueryResponse)
    (total fuel start i : Nat)
    (h : i + 1 < (runLoop f total fuel start).trace.length) :
    ((runLoop f total fuel start).trace.get ⟨i + 1, h⟩).offset =
      ((runLoop f total fuel start).trace.get ⟨i, Nat.lt_of_succ_lt h⟩).offset +
        actualReturnedRows
          (((runLoop f total fuel start).trace.get ⟨i, Nat.lt_of_succ_lt h⟩).response) :=
  wellChained_adjacent total _ start (runLoop_wellChained f total fuel start) i h

/-- Witness for C2: with a remote returning 1 row per fetch against a total
of 2, the second fetch starts at offset `0 + 1`. -/
theorem offset_advances_by_actual_rows_witness :
    ((runLoop shortF 2 5 0).trace.get ⟨1, by decide⟩).offset =
      ((runLoop shortF 2 5 0).trace.get ⟨0, by decide⟩).offset +
        actualReturnedRows (((runLoop shortF 2 5 0).trace.get ⟨0, by decide⟩).response) :=
  offset_advances_by_actual_rows shortF 2 5 0 0 (by decide)

/-- C3 counterexample: with a total of 2 rows and every batch reporting
`done = true` while returning a single row, the loop still issues a second
offset-fetch after the first `done = true` batch — the claim that no further
offset-fetch is issued after a `done` batch is false on the code. -/
theorem done_flag_not_honored_cex :
    ((runLoop doneF 2 5 0).trace.map (fun r => r.response.done)) = [true, true] ∧
    (runLoop doneF 2 5 0).trace.length = 2 ∧
    ¬ (∀ i (h : i < (runLoop doneF 2 5 0).trace.length),
        ((runLoop doneF 2 5 0).trace.get ⟨i, h⟩).response.done = true →
        (runLoop doneF 2 5 0).trace.length = i + 1) := by
  refine ⟨by decide, by decide, ?_⟩
  intro hcl
  have h2 := hcl 0 (by decide) (by decide)
  exact absurd h2 (by decide)

/-- C3 amended: the pagination loop of `getAllResultsWithPagination` ignores
the per-batch `done` flag entirely: the fetch schedule (offsets and request
sizes), the final offset and termination depend only on the row counts the
oracle returns, never on `done`; termination comes solely from the offset
arithmetic `currentOffset >= totalRowCount`. -/
theorem done_flag_ignored (f1 f2 : Nat → Nat → QueryResponse)
    (h : ∀ o s, actualReturnedRows (f1 o s) = actualReturnedRows (f2 o s))
    (total fuel offset : Nat) :
    ((runLoop f1 total fuel offset).trace.map (fun r => (r.offset, r.requested)) =
      (runLoop f2 total fuel offset).trace.map (fun r => (r.offset, r.requested))) ∧
    (runLoop f1 total fuel offset).finalOffset =
      (runLoop f2 total fuel offset).finalOffset ∧
    (runLoop f1 total fuel offset).terminated =
      (runLoop f2 total fuel offset).terminated :=
  runLoop_actual_congr f1 f2 h total fuel offset

/-- Witness for C3 amended: an always-`done` oracle and a never-`done`
oracle with the same row counts produce the same fetch schedule. -/
theorem done_flag_ignored_witness :
    ((runLoop doneF 2 5 0).trace.map (fun r => (r.offset, r.requested)) =
      (runLoop shortF 2 5 0).trace.map (fun r => (r.offset, r.requested))) ∧
    (runLoop doneF 2 5 0).terminated = (runLoop shortF 2 5 0).terminated :=
  ⟨(done_flag_ignored doneF shortF (fun _ _ => rfl) 2 5 0).1,
   (done_flag_ignored doneF shortF (fun _ _ => rfl) 2 5 0).2.2⟩

/-- C4 counterexample: with an exact-return oracle and 50,000 total rows,
`Application.run` requests the second page (offset 25,000) before writing
the first batch — the first batch's write occurs only after all fetches,
so batches are not handed to the writer before the next page is requested. -/
theorem batch_written_after_next_fetch_cex :
    ExportEvent.writeBatch 0 ∈ exportEvents exactF 50000 3 ∧
    ExportEvent.fetchPage 25000 25000 ∈ exportEvents exactF 50000 3 ∧
    ¬ ((exportEvents exactF 50000 3).indexOf (ExportEvent.writeBatch 0) <
        (exportEvents exactF 50000 3).indexOf (ExportEvent.fetchPage 25000 25000)) := by
  exact ⟨by decide, by decide, by decide⟩

/-- C4 amended: `Application.run` with the new pagination accumulates the
entire result set before writing anything: in its event trace every page
fetch precedes every write — no write event ever occurs before a later
fetch event, because `getAllResultsWithPagination` returns only after all
batches are fetched and held in memory. -/
theorem all_fetches_precede_all_writes (fetch : Nat → Nat → QueryResponse)
    (total fuel : Nat) :
    (exportEvents fetch total fuel).Pairwise
      (fun a b => ¬(isWriteEvent a = true ∧ isFetchEvent b = true)) := by
  unfold exportEvents
  by_cases h : (runLoop fetch total fuel 0).trace.length = 0
  · simp [h]
  · simp only [h, if_neg, ite_false]
    refine no_write_before_fetch_append _ _ ?_ ?_
    · intro a ha
      obtain ⟨rec, _, hrec⟩ := List.mem_map.mp ha
      rw [← hrec]; rfl
    · intro b hb
      rcases List.mem_cons.mp hb with hb | hb
      · rw [hb]; rfl
      · obtain ⟨i, _, hi⟩ := List.mem_map.mp hb
        rw [← hi]; rfl

/-- C5 counterexample: with a probe reporting `rowCount = 0`, the loop
issues no offset-fetch, but `Application.run` does not emit a header and
complete successfully — it throws `No data returned from query` because the
accumulated batch list is empty. -/
theorem zero_rows_run_errors_cex :
    totalRowCountOf probe0 = 0 ∧
    (runLoop anyF (totalRowCountOf probe0) 5 0).trace.length = 0 ∧
    appRunModel probe0 anyF 5 = Except.error "No data returned from query" ∧
    ∀ rep : RunReport, appRunModel probe0 anyF 5 ≠ Except.ok rep := by
  have h : appRunModel probe0 anyF 5 = Except.error "No data returned from query" := rfl
  refine ⟨rfl, rfl, h, ?_⟩
  intro rep hrep
  rw [h] at hrep
  exact Except.noConfusion hrep

/-- C5 amended: for every probe whose extracted handle is truthy and whose
reported total row count is 0, the pagination loop issues no offset-fetch
and returns an empty batch list, and `Application.run` then fails with
`No data returned from query` before writing a header line. -/
theorem zero_rows_run_fails (probe : InitialResponse)
    (fetch : Nat → Nat → QueryResponse) (fuel : Nat) (q : String)
    (hq : planQueryId probe = Except.ok q)
    (h0 : totalRowCountOf probe = 0) :
    appRunModel probe fetch fuel = Except.error "No data returned from query" ∧
    (runLoop fetch (totalRowCountOf probe) fuel 0).trace = [] := by
  have hloop : ∀ fl, (runLoop fetch 0 fl 0).trace = [] := by
    intro fl; cases fl <;> simp [runLoop]
  constructor
  · unfold appRunModel
    rw [hq, h0]
    simp [hloop fuel]
  · rw [h0]; exact hloop fuel

/-- Witness for C5 amended at the concrete zero-row probe. -/
theorem zero_rows_run_fails_witness :
    appRunModel probe0 anyF 5 = Except.error "No data returned from query" :=
  (zero_rows_run_fails probe0 anyF 5 "q" rfl rfl).1

/-- C6: planning fails with `No queryId returned from initial query` exactly
when the handle is (JS-)absent from both checked locations — top level and
nested under `status` — and proceeds exactly when it is present in either;
absence is never treated as zero rows or silently tolerated. -/
theorem queryId_presence_decides_planning (r : InitialResponse) :
    ((∃ q, planQueryId r = Except.ok q) ↔
      (truthyStr r.queryId = true ∨
        truthyStr (r.status.bind StatusInfo.queryId) = true)) ∧
    (planQueryId r = Except.error "No queryId returned from initial query" ↔
      (truthyStr r.queryId = false ∧
        truthyStr (r.status.bind StatusInfo.queryId) = false)) := by
  obtain ⟨qid, st, rc⟩ := r
  rcases qid with _ | s
  · rcases st with _ | ⟨sq, sr⟩
    · simp [planQueryId, extractQueryId, jsOrStr, truthyStr]
    · rcases sq with _ | s2
      · simp [planQueryId, extractQueryId, jsOrStr, truthyStr, Option.bind]
      · by_cases h2 : s2 = "" <;>
          simp [planQueryId, extractQueryId, jsOrStr, truthyStr, Option.bind, h2]
  · by_cases h : s = ""
    · rcases st with _ | ⟨sq, sr⟩
      · simp [planQueryId, extractQueryId, jsOrStr, truthyStr, h]
      · rcases sq with _ | s2
        · simp [planQueryId, extractQueryId, jsOrStr, truthyStr, Option.bind, h]
        · by_cases h2 : s2 = "" <;>
            simp [planQueryId, extractQueryId, jsOrStr, truthyStr, Option.bind, h, h2]
    · simp [planQueryId, extractQueryId, jsOrStr, truthyStr, h]

/-- C7: the CSV escape maps `null`/`undefined` to the empty field, wraps any
string containing a comma, double quote, CR or LF in double quotes with each
internal double quote doubled, leaves all other strings unchanged, and every
value containing a comma, double quote, or newline round-trips through
escape followed by RFC-4180 unescape back to its original form. -/
theorem escapeCsv_spec_roundtrip :
    escapeCsv none = [] ∧
    (∀ s, needsQuoting s = false → escapeCsv (some s) = s) ∧
    (∀ s, needsQuoting s = true →
      escapeCsv (some s) = '"' :: (doubleQuotes s ++ ['"'])) ∧
    (∀ s, (',' ∈ s ∨ '"' ∈ s ∨ '\n' ∈ s) →
      rfc4180Unescape (escapeCsv (some s)) = s) := by
  refine ⟨rfl, ?_, ?_, ?_⟩
  · intro s h; simp [escapeCsv, h]
  · intro s h; simp [escapeCsv, h]
  · intro s hmem
    have hq : needsQuoting s = true := by
      rcases hmem with h | h | h <;>
        exact List.any_eq_true.mpr ⟨_, h, by decide⟩
    rw [show escapeCsv (some s) = '"' :: (doubleQuotes s ++ ['"']) by
          simp [escapeCsv, hq],
        rfc4180Unescape_quoted, undoubleQuotes_doubleQuotes]

/-- Witness for C7: a string with a comma and a quote escapes to the quoted,
quote-doubled form and unescapes back to itself. -/
theorem escapeCsv_spec_roundtrip_witness :
    needsQuoting ['a', ',', '"'] = true ∧
    rfc4180Unescape (escapeCsv (some ['a', ',', '"'])) = ['a', ',', '"'] :=
  ⟨by decide, escapeCsv_spec_roundtrip.2.2.2 ['a', ',', '"'] (Or.inl (by decide))⟩

/-- C8: a second `getAccessToken` call made while the cached credential is
unexpired and its positive validation result is still within the 5-minute
validation-cache TTL (keyed by the first 50 characters of the token)
returns the cached token, leaves the state unchanged, and performs zero
token-exchange calls and zero fresh validation probes. -/
theorem cached_token_zero_network_calls
    (validate : List Char → Bool) (freshTok : List Char)
    (now : Nat) (s : AuthState) (t : List Char) (ts : Nat)
    (ht : s.currentToken = some t)
    (hexp0 : s.tokenExpiry ≠ 0)
    (hnow : now < s.tokenExpiry)
    (hcache : lookupCache s.validationCache (t.take 50) = some (true, ts))
    (hts : now - ts < VALIDATION_CACHE_TTL) :
    getAccessToken validate freshTok now s = (t, s, 0, 0) := by
  obtain ⟨ct, exp, cache⟩ := s
  simp only [AuthState.currentToken] at ht
  subst ht
  simp only [AuthState.tokenExpiry] at hexp0 hnow
  simp only [AuthState.validationCache] at hcache
  simp [getAccessToken, isTokenExpired, isTokenValidM, hexp0,
    Nat.not_le.mpr hnow, hcache, hts]

/-- Witness for C8: at time 500, the concrete state returns its cached
token with zero token-exchange calls and zero validation probes. -/
theorem cached_token_zero_network_calls_witness :
    getAccessToken (fun _ => false) ['n'] 500 authS = (['t'], authS, 0, 0) :=
  cached_token_zero_network_calls (fun _ => false) ['n'] 500 authS ['t'] 400
    rfl (by decide) (by decide) (by decide) (by decide)

/-- C9: a failure of the storage upload step is caught and never propagated:
the run still terminates successfully (with no remote URL), and the upload
error does not alter the already-written local output file. -/
theorem storage_upload_failure_swallowed {α : Type} (bucketName : Option String)
    (e : String) (file : α) :
    finalizeExport true bucketName (Except.error e) file =
      Except.ok (none, file) := by
  cases hb : truthyStr bucketName <;> simp [finalizeExport, hb]

/-- C10: the pagination loop terminates only if every fetch issued while
`currentOffset < totalRowCount` advances the offset: for any oracle whose
batches have `returnedRows` absent or 0 and an empty (or absent) data array,
the offset never advances and the loop reissues the same fetch (same offset,
same requested size) once per unit of fuel, never reaching termination —
there is no stall or maximum-iteration guard. -/
theorem stalled_fetch_never_terminates (f : Nat → Nat → QueryResponse)
    (total offset : Nat)
    (hempty : ∀ o s, ((f o s).returnedRows = none ∨ (f o s).returnedRows = some 0) ∧
      ((f o s).data = none ∨ (f o s).data = some []))
    (hlt : offset < total) (fuel : Nat) :
    (runLoop f total fuel offset).terminated = false ∧
    (runLoop f total fuel offset).trace.length = fuel ∧
    ∀ r ∈ (runLoop f total fuel offset).trace,
      r.offset = offset ∧ r.requested = min maxBatchSize (total - offset) := by
  have ha : ∀ o s, actualReturnedRows (f o s) = 0 := fun o s =>
    actualReturnedRows_zero _ (hempty o s).1 (hempty o s).2
  exact runLoop_stalled_aux f total offset ha hlt fuel

/-- Witness for C10: a zero-row oracle against a 5-row total never
terminates within 3 units of fuel and issues 3 identical fetches. -/
theorem stalled_fetch_never_terminates_witness :
    (runLoop stallF 5 3 0).terminated = false ∧
    (runLoop stallF 5 3 0).trace.length = 3 :=
  ⟨(stalled_fetch_never_terminates stallF 5 0
      (fun _ _ => ⟨Or.inr rfl, Or.inr rfl⟩) (by decide) 3).1,
   (stalled_fetch_never_terminates stallF 5 0
      (fun _ _ => ⟨Or.inr rfl, Or.inr rfl⟩) (by decide) 3).2.1⟩
